import Mathlib

set_option maxRecDepth 2000

/-!
Verification of the sensor-logger HTTP push server against its specification.

This file gives a shallow embedding, in Lean 4, of the parts of the repository
that the checked claims are about:

* the PostgreSQL ingestion gateway `datacollection_postgresql.py`
  (schema keyed by timestamp, `store_data_in_db`, `store_location_data`,
  the decode loop of `upload_sensor_data`, the retention sweep
  `cleanup_old_data`) — namespace `DCPostgres`;
* the SQLite variant `fastapi_datacollection.py` (`store_data_in_db` with
  its `IntegrityError` handler) — namespace `FastApiDC`;
* the live ring buffer of `streamlit_app.py` (`DataStore`, the admission
  step inside its `upload_sensor_data`) — namespace `StreamlitApp`;
* the spectral feature extraction of `smartphone_sensor_data.py`
  (`extract_dominant_frequency`, `extract_h_over_v_dominant_frequency`) —
  namespace `SmartphoneSensorData`.

Conventions of the embedding: Python floats are modelled as `ℚ` where the
code only moves values around, and as `ℝ` where it applies `log10`;
timestamps are the rational number of seconds produced by
`datetime.fromtimestamp(time / 1e9)`; a raised Python exception is an
`Except.error` carrying a short message; database tables are lists of rows in
insertion order.
-/

namespace SensorServer

/-- Index of the first maximum of a list (the semantics of `np.argmax`:
ties resolve to the smallest index). Returns `0` on the empty list; `np.argmax`
raises there, and every use below guards nonemptiness separately. -/
def argmaxAux {α : Type} [LinearOrder α] : List α → Option (Nat × α)
  | [] => none
  | a :: rest =>
    match argmaxAux rest with
    | none => some (0, a)
    | some (j, m) => if a < m then some (j + 1, m) else some (0, a)

/-- First-maximum index, `np.argmax`. -/
def argmaxIdx {α : Type} [LinearOrder α] (l : List α) : Nat :=
  match argmaxAux l with
  | none => 0
  | some p => p.1

namespace DCPostgres

/-- One row of a per-sensor-type table of `datacollection_postgresql.py`.
`init_database` declares `timestamp TIMESTAMP PRIMARY KEY, client_ip TEXT,
x REAL, y REAL, z REAL`: the timestamp column alone is the primary key. -/
structure SensorRow where
  timestamp : ℚ
  client_ip : String
  x : ℚ
  y : ℚ
  z : ℚ
deriving DecidableEq

/-- One `INSERT INTO ..._data ... ON CONFLICT (timestamp) DO NOTHING`:
the row is appended unless some stored row already carries the same
timestamp (the primary key); a conflicting row is silently skipped. -/
def insertRow (table : List SensorRow) (r : SensorRow) : List SensorRow :=
  if table.any (fun r0 => decide (r0.timestamp = r.timestamp)) then table
  else table ++ [r]

/-- `store_data_in_db sensor_name data`: `conn.executemany` runs the insert
statement once per tuple, in order, within one session, so each insert sees
the rows inserted by the previous ones. -/
def store_data_in_db (table : List SensorRow) (data : List SensorRow) : List SensorRow :=
  data.foldl insertRow table

/-- One row of `location_data`: `timestamp TIMESTAMP PRIMARY KEY, client_ip
TEXT`, then five nullable REAL columns filled from `values.get(...)`. -/
structure LocationRow where
  timestamp : ℚ
  client_ip : String
  latitude : Option ℚ
  longitude : Option ℚ
  altitude : Option ℚ
  horizontal_accuracy : Option ℚ
  vertical_accuracy : Option ℚ
deriving DecidableEq

/-- `INSERT INTO location_data ... ON CONFLICT (timestamp) DO NOTHING`. -/
def insertLocationRow (table : List LocationRow) (r : LocationRow) : List LocationRow :=
  if table.any (fun r0 => decide (r0.timestamp = r.timestamp)) then table
  else table ++ [r]

/-- `store_location_data`: `executemany` of the location insert. -/
def store_location_data (table : List LocationRow) (data : List LocationRow) : List LocationRow :=
  data.foldl insertLocationRow table

/-- `sensor_data_list_to_store` of `datacollection_postgresql.py`. -/
def sensor_data_list_to_store : List String :=
  ["gravity", "accelerometer", "accelerometeruncalibrated", "gyroscope", "totalacceleration"]

/-- The `values` dictionary of one raw payload record; a key the client did
not send is `none`. -/
structure RawValues where
  x : Option ℚ
  y : Option ℚ
  z : Option ℚ
  latitude : Option ℚ
  longitude : Option ℚ
  altitude : Option ℚ
  horizontalAccuracy : Option ℚ
  verticalAccuracy : Option ℚ
deriving DecidableEq

/-- Values dictionary of a motion sample carrying exactly x, y, z. -/
def motionValues (x y z : ℚ) : RawValues :=
  ⟨some x, some y, some z, none, none, none, none, none⟩

/-- One raw JSON record of the payload: `name`, `time` (integer nanoseconds)
and the `values` map, each possibly absent (`d.get`/`d[...]`). -/
structure RawRecord where
  name : Option String
  time : Option Int
  values : Option RawValues
deriving DecidableEq

/-- `datetime.fromtimestamp(d["time"] / 1_000_000_000)`: nanoseconds since the
epoch to seconds, kept exact in `ℚ`. -/
def tsOfNanos (t : Int) : ℚ := (t : ℚ) / 1000000000

/-- The per-type in-memory batches `data_batches` built by the decode loop. -/
structure DataBatches where
  gravity : List SensorRow
  accelerometer : List SensorRow
  accelerometeruncalibrated : List SensorRow
  gyroscope : List SensorRow
  totalacceleration : List SensorRow
deriving DecidableEq

/-- The initial empty `data_batches` dictionary. -/
def emptyBatches : DataBatches := ⟨[], [], [], [], []⟩

/-- `data_batches[name].append(row)` for a name of the supported list. -/
def addToBatch (b : DataBatches) (nm : String) (r : SensorRow) : DataBatches :=
  if nm = "gravity" then { b with gravity := b.gravity ++ [r] }
  else if nm = "accelerometer" then { b with accelerometer := b.accelerometer ++ [r] }
  else if nm = "accelerometeruncalibrated" then
    { b with accelerometeruncalibrated := b.accelerometeruncalibrated ++ [r] }
  else if nm = "gyroscope" then { b with gyroscope := b.gyroscope ++ [r] }
  else if nm = "totalacceleration" then
    { b with totalacceleration := b.totalacceleration ++ [r] }
  else b

/-- One iteration of the decode loop of `upload_sensor_data`
(lines 210-224). A record whose `name` is in the supported list needs
`d["time"]`, `d["values"]` and the three axes; a missing key raises a
`KeyError`, modelled as `Except.error`. A `location` record needs `time`
and `values`; the five coordinates use `.get` and may be absent. Any other
record is skipped silently. The `Nat` component is `processed_count`. -/
def processRecord (client_ip : String) (st : DataBatches × List LocationRow × Nat)
    (d : RawRecord) : Except String (DataBatches × List LocationRow × Nat) :=
  match d.name with
  | none => Except.ok st
  | some nm =>
    if nm ∈ sensor_data_list_to_store then
      match d.time with
      | none => Except.error "KeyError time"
      | some t =>
        match d.values with
        | none => Except.error "KeyError values"
        | some vs =>
          match vs.x with
          | none => Except.error "KeyError x"
          | some x =>
            match vs.y with
            | none => Except.error "KeyError y"
            | some y =>
              match vs.z with
              | none => Except.error "KeyError z"
              | some z =>
                Except.ok
                  (addToBatch st.1 nm ⟨tsOfNanos t, client_ip, x, y, z⟩,
                   st.2.1, st.2.2 + 1)
    else if nm = "location" then
      match d.time with
      | none => Except.error "KeyError time"
      | some t =>
        match d.values with
        | none => Except.error "KeyError values"
        | some vs =>
          Except.ok
            (st.1,
             st.2.1 ++ [⟨tsOfNanos t, client_ip, vs.latitude, vs.longitude, vs.altitude,
                         vs.horizontalAccuracy, vs.verticalAccuracy⟩],
             st.2.2)
    else Except.ok st

/-- The whole decode loop: a left fold over the payload that aborts at the
first raised exception. It runs to completion before any store call is made. -/
def processPayload (client_ip : String) (payload : List RawRecord) :
    Except String (DataBatches × List LocationRow × Nat) :=
  payload.foldlM (processRecord client_ip) (emptyBatches, [], 0)

/-- The durable PostgreSQL state: the five sensor tables and `location_data`. -/
structure DbState where
  gravity : List SensorRow
  accelerometer : List SensorRow
  accelerometeruncalibrated : List SensorRow
  gyroscope : List SensorRow
  totalacceleration : List SensorRow
  location : List LocationRow
deriving DecidableEq

/-- The freshly initialised, empty database. -/
def emptyDb : DbState := ⟨[], [], [], [], [], []⟩

/-- The JSON body returned by the endpoint: always HTTP 200, either
`{"status": "success", "processed_count": n}` or
`{"status": "error", "message": e}`. -/
inductive UploadResponse where
  | success (processed_count : Nat)
  | error (message : String)
deriving DecidableEq

/-- The `POST /data` handler `upload_sensor_data` (lines 185-245): decode the
whole payload, then perform the batch writes for each sensor type and the
location write, and answer with `processed_count`. Any exception raised while
processing is caught and converted into an error response, leaving the
database exactly as it was, because every store call happens after the loop. -/
def upload_sensor_data (db : DbState) (client_ip : String) (payload : List RawRecord) :
    DbState × UploadResponse :=
  match processPayload client_ip payload with
  | Except.error e => (db, UploadResponse.error e)
  | Except.ok (batches, locs, n) =>
      (⟨store_data_in_db db.gravity batches.gravity,
        store_data_in_db db.accelerometer batches.accelerometer,
        store_data_in_db db.accelerometeruncalibrated batches.accelerometeruncalibrated,
        store_data_in_db db.gyroscope batches.gyroscope,
        store_data_in_db db.totalacceleration batches.totalacceleration,
        store_location_data db.location locs⟩,
       UploadResponse.success n)

/-- The number of payload records whose `name` is in the supported motion
list — the records the decode loop counts in `processed_count`. -/
def countSupported (payload : List RawRecord) : Nat :=
  payload.countP (fun d =>
    match d.name with
    | some nm => decide (nm ∈ sensor_data_list_to_store)
    | none => false)

/-- The tables visited by one iteration of `cleanup_old_data`: the five
`{sensor}_data` tables in order, then `location_data`. -/
def cleanup_tables : List String :=
  sensor_data_list_to_store.map (fun s => s ++ "_data") ++ ["location_data"]

/-- Whether a delete attempt succeeded. -/
def exceptOk {ε α : Type} : Except ε α → Bool
  | Except.ok _ => true
  | Except.error _ => false

/-- The sequence of `DELETE` statements inside the single `try` of one sweep
iteration. `deleteOld t` is the outcome of `DELETE FROM t WHERE timestamp <
NOW() - INTERVAL ...`. A raised exception aborts the remaining deletes of this
run; the result is the list of tables swept, in order, and the first error. -/
def run_deletes (deleteOld : String → Except String Unit) :
    List String → List String × Option String
  | [] => ([], none)
  | t :: rest =>
    match deleteOld t with
    | Except.error e => ([], some e)
    | Except.ok _ =>
      let p := run_deletes deleteOld rest
      (t :: p.1, p.2)

/-- One iteration of the `while True` body of `cleanup_old_data`
(lines 81-99): the whole per-table loop sits in one `try`, whose `except`
logs the error and falls through to the sleep. -/
def cleanup_run (deleteOld : String → Except String Unit) : List String × Option String :=
  run_deletes deleteOld cleanup_tables

/-- The periodic loop itself: `n` periods, each executing one full run with
that period's delete outcomes, regardless of what earlier periods did. -/
def cleanup_periods (deleteOld : Nat → String → Except String Unit) :
    Nat → List (List String × Option String)
  | 0 => []
  | Nat.succ n => cleanup_periods deleteOld n ++ [cleanup_run (deleteOld n)]

end DCPostgres

namespace FastApiDC

/-- Row of the SQLite `accelerometer_data` and `gravity_data` tables of
`fastapi_datacollection.py`: `timestamp DATETIME PRIMARY KEY, x, y, z` —
there is no client column. -/
structure AccelRow where
  timestamp : ℚ
  x : ℚ
  y : ℚ
  z : ℚ
deriving DecidableEq

/-- The raw `INSERT INTO ... (timestamp, x, y, z) VALUES (?,?,?,?)`: a
duplicate primary key raises `sqlite3.IntegrityError`. -/
def rawInsert (table : List AccelRow) (r : AccelRow) : Except String (List AccelRow) :=
  if table.any (fun r0 => decide (r0.timestamp = r.timestamp)) then
    Except.error "IntegrityError"
  else Except.ok (table ++ [r])

/-- `store_data_in_db` (lines 53-70): the insert wrapped in
`try ... except sqlite3.IntegrityError: pass` — a duplicate timestamp is a
silent no-op and the table is left unchanged. -/
def store_data_in_db (table : List AccelRow) (r : AccelRow) : List AccelRow :=
  match rawInsert table r with
  | Except.ok t => t
  | Except.error _ => table

end FastApiDC

namespace StreamlitApp

/-- `data_length_to_display = 60` seconds. -/
def data_length_to_display : Nat := 60

/-- `sampling_rate = 50` Hz. -/
def sampling_rate : Nat := 50

/-- `total_data_points = data_length_to_display * sampling_rate`: the
`maxlen` of each deque of the live buffer. -/
def total_data_points : Nat := data_length_to_display * sampling_rate

/-- One decoded accelerometer sample admitted to the live buffer. -/
structure Sample where
  ts : ℚ
  x : ℚ
  y : ℚ
  z : ℚ
deriving DecidableEq

/-- The live buffer of `streamlit_app.py`: the four parallel deques of
`DataStore`, each with `maxlen = total_data_points`. The lock and the two
visualization bookkeeping fields do not affect buffer contents and are not
modelled. -/
structure DataStore where
  time_queue : List ℚ
  accel_x_queue : List ℚ
  accel_y_queue : List ℚ
  accel_z_queue : List ℚ
deriving DecidableEq

/-- The freshly constructed, empty `DataStore`. -/
def emptyStore : DataStore := ⟨[], [], [], []⟩

/-- `collections.deque(maxlen).append`: when the deque is full the oldest
(front) element is evicted before the new element is appended at the back. -/
def dequeAppend {α : Type} (maxlen : Nat) (q : List α) (a : α) : List α :=
  if q.length < maxlen then q ++ [a] else q.drop 1 ++ [a]

/-- The admission step inside `upload_sensor_data` (lines 110-114): append the
sample to all four deques exactly when the buffer is empty or the sample's
timestamp is strictly greater than the last buffered one
(`len(time_queue) == 0 or ts > time_queue[-1]`); otherwise drop it. -/
def admit_sample (ds : DataStore) (s : Sample) : DataStore :=
  match ds.time_queue.getLast? with
  | none =>
      ⟨dequeAppend total_data_points ds.time_queue s.ts,
       dequeAppend total_data_points ds.accel_x_queue s.x,
       dequeAppend total_data_points ds.accel_y_queue s.y,
       dequeAppend total_data_points ds.accel_z_queue s.z⟩
  | some t =>
      if t < s.ts then
        ⟨dequeAppend total_data_points ds.time_queue s.ts,
         dequeAppend total_data_points ds.accel_x_queue s.x,
         dequeAppend total_data_points ds.accel_y_queue s.y,
         dequeAppend total_data_points ds.accel_z_queue s.z⟩
      else ds

/-- Admission of a whole batch, in payload order. -/
def admit_all (ds : DataStore) (ss : List Sample) : DataStore :=
  ss.foldl admit_sample ds

/-- The last `n` elements of a list (all of it when it is shorter). -/
def lastN {α : Type} (n : Nat) (l : List α) : List α := l.drop (l.length - n)

end StreamlitApp

namespace SmartphoneSensorData

/-- `np.sum(Sxx, axis=1)`: the spectrogram is indexed (frequency bin, time
segment); summing over axis 1 gives the total power per frequency bin. -/
noncomputable def totalPower (Sxx : List (List ℝ)) : List ℝ :=
  Sxx.map (fun row => row.sum)

/-- `10 * np.log10`: power to decibels. -/
noncomputable def toDb (p : ℝ) : ℝ := 10 * Real.logb 10 p

/-- The default `power_threshold` of both extraction functions: −30 dB. -/
noncomputable def default_power_threshold : ℝ := -30

/-- `extract_dominant_frequency(Sxx, f, power_threshold)` (lines 90-105):
sum power over time per frequency bin, convert to dB, take `np.argmax`, and
return the frequency of that bin when its total power in dB strictly
exceeds the threshold, else the sentinel `0.0`. Out-of-range indexing,
impossible when `f` matches `Sxx` as in the source, is totalised by `getD`. -/
noncomputable def extract_dominant_frequency (Sxx : List (List ℝ)) (f : List ℝ)
    (power_threshold : ℝ) : ℝ :=
  let total_power_db := (totalPower Sxx).map toDb
  let i := argmaxIdx total_power_db
  if power_threshold < total_power_db.getD i 0 then f.getD i 0 else 0

/-- `np.maximum(Sxx, epsilon)` with `epsilon = 1e-10`: clamp zero or negative
power to a small positive value before the logarithm. -/
noncomputable def clampEps (Sxx : List (List ℝ)) : List (List ℝ) :=
  Sxx.map (fun row => row.map (fun v => max v (1 / 10000000000)))

/-- `np.max` over a one-dimensional array; raises on an empty array. -/
noncomputable def npMax (l : List ℝ) : Except String ℝ :=
  match l with
  | [] => Except.error "zero-size array reduction"
  | a :: rest => Except.ok (rest.foldl max a)

/-- An elementwise binary operation on two one-dimensional numpy arrays,
with length-1 broadcasting; mismatched lengths otherwise raise. -/
noncomputable def npZip (op : ℝ → ℝ → ℝ) (a b : List ℝ) : Except String (List ℝ) :=
  if a.length = b.length then Except.ok (List.zipWith op a b)
  else if a.length = 1 then Except.ok (b.map (fun y => op (a.getD 0 0) y))
  else if b.length = 1 then Except.ok (a.map (fun x => op x (b.getD 0 0)))
  else Except.error "operands could not be broadcast together"

/-- The body of the `try` of `extract_h_over_v_dominant_frequency`
(lines 121-162), with the source's evaluation order: clamp each spectrogram,
compute the three per-bin total-power dB curves, check each of X, Y, Z
against the threshold (returning the sentinel `0.0` when one fails), average
the two horizontal dB curves, only then compare the three frequency grids and
raise `ValueError` on mismatch, build the H/V ratio curve, and among the bins
whose ratio strictly exceeds the threshold return the frequency of the bin
with the largest ratio (an empty selection makes `np.argmax` raise). -/
noncomputable def hOverVCore (SxxX SxxY SxxZ : List (List ℝ)) (fX fY fZ : List ℝ)
    (power_threshold : ℝ) : Except String ℝ :=
  let dbX := (totalPower (clampEps SxxX)).map toDb
  let dbY := (totalPower (clampEps SxxY)).map toDb
  let dbZ := (totalPower (clampEps SxxZ)).map toDb
  match npMax dbX with
  | Except.error e => Except.error e
  | Except.ok mx =>
  if mx < power_threshold then Except.ok 0 else
  match npMax dbY with
  | Except.error e => Except.error e
  | Except.ok my =>
  if my < power_threshold then Except.ok 0 else
  match npMax dbZ with
  | Except.error e => Except.error e
  | Except.ok mz =>
  if mz < power_threshold then Except.ok 0 else
  match npZip (fun u v => u + v) dbX dbY with
  | Except.error e => Except.error e
  | Except.ok sumH =>
  let dbH := sumH.map (fun v => v / 2)
  if fX ≠ fY ∨ fX ≠ fZ then
    Except.error "Frequency arrays for X, Y, and Z components must match."
  else
    match npZip (fun u v => u - v) dbH dbZ with
    | Except.error e => Except.error e
    | Except.ok hvRatioDb =>
      let validIdx := (List.range hvRatioDb.length).filter
        (fun i => decide (power_threshold < hvRatioDb.getD i 0))
      match validIdx with
      | [] => Except.error "attempt to get argmax of an empty sequence"
      | _ :: _ =>
        let dom := validIdx.getD (argmaxIdx (validIdx.map (fun i => hvRatioDb.getD i 0))) 0
        if dom < fX.length then Except.ok (fX.getD dom 0)
        else Except.error "index out of bounds"

/-- `extract_h_over_v_dominant_frequency` (lines 107-165): the whole body sits
in `try ... except Exception: logger.error(...); return 0.0` — every raised
exception, the grid-mismatch `ValueError` included, is caught and the numeric
sentinel `0.0` is returned to the caller. -/
noncomputable def extract_h_over_v_dominant_frequency (SxxX SxxY SxxZ : List (List ℝ))
    (fX fY fZ : List ℝ) (power_threshold : ℝ) : ℝ :=
  match hOverVCore SxxX SxxY SxxZ fX fY fZ power_threshold with
  | Except.ok v => v
  | Except.error _ => 0

end SmartphoneSensorData

open DCPostgres StreamlitApp SmartphoneSensorData

/-! ## Durable store: dedup key and idempotence -/

/-- After inserting `r`, some stored row carries `r.timestamp`. -/
theorem insertRow_any_timestamp (tbl : List SensorRow) (r : SensorRow) :
    (insertRow tbl r).any (fun r0 => decide (r0.timestamp = r.timestamp)) = true := by
  unfold insertRow
  split
  · assumption
  · simp

/-- Inserting a row whose timestamp is already keyed is a no-op. -/
theorem insertRow_of_any (tbl : List SensorRow) (s : SensorRow)
    (hmem : tbl.any (fun r0 => decide (r0.timestamp = s.timestamp)) = true) :
    insertRow tbl s = tbl := by
  unfold insertRow
  rw [if_pos hmem]

/-- A two-row batch whose rows share a timestamp stores at most the first. -/
theorem store_pair_same_timestamp (tbl : List SensorRow) (r1 r2 : SensorRow)
    (h : r1.timestamp = r2.timestamp) :
    store_data_in_db tbl [r1, r2] = insertRow tbl r1 := by
  show insertRow (insertRow tbl r1) r2 = insertRow tbl r1
  apply insertRow_of_any
  rw [← h]
  exact insertRow_any_timestamp tbl r1

/-- A raw insert against a table already keying the timestamp raises. -/
theorem fa_raw_of_any (t0 : List FastApiDC.AccelRow) (a : FastApiDC.AccelRow)
    (h : t0.any (fun r0 => decide (r0.timestamp = a.timestamp)) = true) :
    FastApiDC.rawInsert t0 a = Except.error "IntegrityError" := by
  unfold FastApiDC.rawInsert
  rw [if_pos h]

/-- The FastAPI store call swallows the duplicate-key error: no change. -/
theorem fa_store_of_any (t0 : List FastApiDC.AccelRow) (a : FastApiDC.AccelRow)
    (h : t0.any (fun r0 => decide (r0.timestamp = a.timestamp)) = true) :
    FastApiDC.store_data_in_db t0 a = t0 := by
  unfold FastApiDC.store_data_in_db
  rw [fa_raw_of_any t0 a h]

/-- After the FastAPI store call, a row with `a`'s timestamp is present. -/
theorem fa_store_any_timestamp (t0 : List FastApiDC.AccelRow) (a : FastApiDC.AccelRow) :
    (FastApiDC.store_data_in_db t0 a).any
      (fun r0 => decide (r0.timestamp = a.timestamp)) = true := by
  unfold FastApiDC.store_data_in_db FastApiDC.rawInsert
  by_cases h : t0.any (fun r0 => decide (r0.timestamp = a.timestamp)) = true
  · rw [if_pos h]
    exact h
  · rw [if_neg h]
    simp

/-- Claim C1 (corrected by `C1_counterexample`): the per-sensor-type tables
are keyed by `timestamp` alone, so in any batch two rows sharing a timestamp
— whatever their `client_ip` — collapse to the first: the second insert hits
`ON CONFLICT (timestamp) DO NOTHING` and is dropped. -/
theorem C1_theorem (tbl : List SensorRow) (r1 r2 : SensorRow)
    (h : r1.timestamp = r2.timestamp) :
    store_data_in_db tbl [r1, r2] = insertRow tbl r1 :=
  store_pair_same_timestamp tbl r1 r2 h

/-- Witness for `C1_theorem`: two same-timestamp rows from the distinct
clients `1.1.1.1` and `2.2.2.2` inserted into the empty table leave a single
row, the first one. -/
theorem C1_witness :
    (⟨0, "1.1.1.1", 1, 2, 3⟩ : SensorRow).timestamp =
      (⟨0, "2.2.2.2", 4, 5, 6⟩ : SensorRow).timestamp ∧
    store_data_in_db [] [⟨0, "1.1.1.1", 1, 2, 3⟩, ⟨0, "2.2.2.2", 4, 5, 6⟩] =
      insertRow [] ⟨0, "1.1.1.1", 1, 2, 3⟩ :=
  ⟨rfl, C1_theorem [] ⟨0, "1.1.1.1", 1, 2, 3⟩ ⟨0, "2.2.2.2", 4, 5, 6⟩ rfl⟩

/-- Counterexample to claim C1 as stated: the claim demands that two
same-timestamp samples from different clients give two stored rows; the code
stores exactly one — the sample from client `2.2.2.2` is deduplicated against
the same-timestamp sample from client `1.1.1.1`. -/
theorem C1_counterexample :
    store_data_in_db []
        [⟨0, "1.1.1.1", 1, 2, 3⟩, ⟨0, "2.2.2.2", 4, 5, 6⟩] =
      [⟨0, "1.1.1.1", 1, 2, 3⟩] ∧
    (store_data_in_db []
        [⟨0, "1.1.1.1", 1, 2, 3⟩, ⟨0, "2.2.2.2", 4, 5, 6⟩]).length = 1 := by
  constructor <;> decide

/-- Claim C2 (confirmed): inserting the identical row twice is idempotent in
both gateways. In the PostgreSQL store the second row of the pair is a no-op
and a doubled insert into the empty table stores exactly one row; in the
SQLite store the repeated call leaves the table unchanged even though the raw
insert underneath raises `IntegrityError` — the handler swallows it, so the
caller sees no error (both store functions return plain tables, never an
exception). -/
theorem C2_theorem (tbl : List SensorRow) (r : SensorRow)
    (t0 : List FastApiDC.AccelRow) (a : FastApiDC.AccelRow) :
    store_data_in_db tbl [r, r] = insertRow tbl r ∧
    store_data_in_db [] [r, r] = [r] ∧
    FastApiDC.store_data_in_db (FastApiDC.store_data_in_db t0 a) a =
      FastApiDC.store_data_in_db t0 a ∧
    FastApiDC.rawInsert (FastApiDC.store_data_in_db [] a) a =
      Except.error "IntegrityError" := by
  refine ⟨store_pair_same_timestamp tbl r r rfl, ?_, ?_, ?_⟩
  · rw [store_pair_same_timestamp [] r r rfl]
    simp [insertRow]
  · exact fa_store_of_any _ a (fa_store_any_timestamp t0 a)
  · exact fa_raw_of_any _ a (fa_store_any_timestamp [] a)

/-! ## Ingestion gateway: decode loop, error handling, processed count -/

/-- Bind after a successful `Except` computation runs the continuation. -/
theorem ebind_ok {ε α β : Type} (a : α) (f : α → Except ε β) :
    (Except.ok a >>= f) = f a := rfl

/-- Bind after a raised `Except` propagates the error. -/
theorem ebind_error {ε α β : Type} (e : ε) (f : α → Except ε β) :
    ((Except.error e : Except ε α) >>= f) = Except.error e := rfl

/-- A fold in the `Except` monad over an appended list, when the first part
succeeds, continues from its result. -/
theorem exceptFoldlM_append_ok {ε σ α : Type} (f : σ → α → Except ε σ)
    {l1 : List α} (l2 : List α) {s s2 : σ}
    (h : l1.foldlM f s = Except.ok s2) :
    (l1 ++ l2).foldlM f s = l2.foldlM f s2 := by
  induction l1 generalizing s with
  | nil =>
    cases h
    rfl
  | cons a l ih =>
    rw [List.foldlM_cons] at h
    cases hfa : f s a with
    | error e => rw [hfa, ebind_error] at h; cases h
    | ok s1 =>
      rw [hfa, ebind_ok] at h
      rw [List.cons_append, List.foldlM_cons, hfa, ebind_ok]
      exact ih h

/-- A fold in the `Except` monad aborts at the first raised step. -/
theorem exceptFoldlM_cons_error {ε σ α : Type} (f : σ → α → Except ε σ)
    {a : α} (l : List α) {s : σ} {e : ε} (hfa : f s a = Except.error e) :
    (a :: l).foldlM f s = Except.error e := by
  rw [List.foldlM_cons, hfa, ebind_error]

/-- A supported-type record with no `time` key makes the decode step raise. -/
theorem processRecord_missing_time (cip : String)
    (s : DataBatches × List LocationRow × Nat) (d : RawRecord) (nm : String)
    (hnm : d.name = some nm) (hsup : nm ∈ sensor_data_list_to_store)
    (htime : d.time = none) :
    processRecord cip s d = Except.error "KeyError time" := by
  simp [processRecord, hnm, hsup, htime]

/-- Claim C3 (corrected by `C3_counterexample`): a record that declares a
supported sensor type but is missing its `time` field aborts the whole batch:
provided the records before it decode cleanly, the endpoint answers with the
error response for the raised `KeyError` and no record of the batch — before
or after the malformed one — is stored. -/
theorem C3_theorem (db : DbState) (cip : String) (pre post : List RawRecord)
    (d : RawRecord) (s : DataBatches × List LocationRow × Nat) (nm : String)
    (hpre : processPayload cip pre = Except.ok s)
    (hnm : d.name = some nm) (hsup : nm ∈ sensor_data_list_to_store)
    (htime : d.time = none) :
    upload_sensor_data db cip (pre ++ d :: post) =
      (db, UploadResponse.error "KeyError time") := by
  have hall : processPayload cip (pre ++ d :: post) = Except.error "KeyError time" := by
    unfold processPayload at hpre ⊢
    rw [exceptFoldlM_append_ok (processRecord cip) (d :: post) hpre]
    exact exceptFoldlM_cons_error (processRecord cip) post
      (processRecord_missing_time cip s d nm hnm hsup htime)
  unfold upload_sensor_data
  rw [hall]

/-- Witness for `C3_theorem`: a well-formed accelerometer record, then a
gravity record with no `time`, then another well-formed record. -/
theorem C3_witness :
    processPayload "1.2.3.4"
        [⟨some "accelerometer", some 1000000000, some (motionValues 1 2 3)⟩] =
      Except.ok
        (⟨[], [⟨tsOfNanos 1000000000, "1.2.3.4", 1, 2, 3⟩], [], [], []⟩, [], 1) ∧
    (⟨some "gravity", none, some (motionValues 4 5 6)⟩ : RawRecord).time = none ∧
    upload_sensor_data emptyDb "1.2.3.4"
        ([⟨some "accelerometer", some 1000000000, some (motionValues 1 2 3)⟩] ++
          ⟨some "gravity", none, some (motionValues 4 5 6)⟩ ::
            [⟨some "accelerometer", some 2000000000, some (motionValues 7 8 9)⟩]) =
      (emptyDb, UploadResponse.error "KeyError time") :=
  ⟨rfl, rfl,
    C3_theorem emptyDb "1.2.3.4"
      [⟨some "accelerometer", some 1000000000, some (motionValues 1 2 3)⟩]
      [⟨some "accelerometer", some 2000000000, some (motionValues 7 8 9)⟩]
      ⟨some "gravity", none, some (motionValues 4 5 6)⟩
      (⟨[], [⟨tsOfNanos 1000000000, "1.2.3.4", 1, 2, 3⟩], [], [], []⟩, [], 1) "gravity"
      rfl rfl (by decide) rfl⟩

/-- Counterexample to claim C3 as stated: the claim demands that a record
missing a required field be skipped while the rest of the batch is stored and
counted; in the code the `KeyError` aborts the batch — the two well-formed
accelerometer records around the malformed gravity record are not stored, no
`processed_count` is returned, and the response is an error. -/
theorem C3_counterexample :
    upload_sensor_data emptyDb "1.2.3.4"
        [⟨some "accelerometer", some 1000000000, some (motionValues 1 2 3)⟩,
         ⟨some "gravity", none, some (motionValues 4 5 6)⟩,
         ⟨some "accelerometer", some 2000000000, some (motionValues 7 8 9)⟩] =
      (emptyDb, UploadResponse.error "KeyError time") := by
  decide

/-- The `processed_count` component of a successful decode fold counts
exactly the supported-name records, on top of the initial count. -/
theorem foldlM_processRecord_count (cip : String) (payload : List RawRecord) :
    ∀ (s out : DataBatches × List LocationRow × Nat),
      payload.foldlM (processRecord cip) s = Except.ok out →
      out.2.2 = s.2.2 + countSupported payload := by
  induction payload with
  | nil =>
    intro s out h
    cases h
    simp [countSupported]
  | cons d l ih =>
    intro s out h
    rw [List.foldlM_cons] at h
    cases hd : processRecord cip s d with
    | error e => rw [hd, ebind_error] at h; cases h
    | ok s1 =>
      rw [hd, ebind_ok] at h
      have hrest := ih s1 out h
      have hstep : s1.2.2 = s.2.2 +
          (if (match d.name with
               | some nm => decide (nm ∈ sensor_data_list_to_store)
               | none => false) then 1 else 0) := by
        unfold processRecord at hd
        repeat' split at hd
        all_goals
          first
            | exact Except.noConfusion hd
            | (cases hd; simp_all)
      rw [hrest, hstep]
      unfold countSupported
      simp only [List.countP_cons]
      omega

/-- Claim C9 (corrected by `C9_counterexample`): for a batch that decodes
without an exception, the returned `processed_count` is exactly the number of
records whose `name` is in the supported motion-sensor list — independent of
the durable writes, so deduplicated inserts still count, but decoded and
routed `location` records are not counted. -/
theorem C9_theorem (db : DbState) (cip : String) (payload : List RawRecord)
    (b : DataBatches) (locs : List LocationRow) (n : Nat)
    (h : processPayload cip payload = Except.ok (b, locs, n)) :
    n = countSupported payload ∧
    (upload_sensor_data db cip payload).2 = UploadResponse.success n := by
  constructor
  · have := foldlM_processRecord_count cip payload (emptyBatches, [], 0) (b, locs, n) h
    simpa using this
  · unfold upload_sensor_data
    rw [h]

/-- Witness for `C9_theorem`: a one-record location batch decodes to count 0. -/
theorem C9_witness :
    processPayload "9.9.9.9"
        [⟨some "location", some 1000000000,
          some ⟨none, none, none, some 37, some (-122), some 68, some 32, some (3/2)⟩⟩] =
      Except.ok
        (emptyBatches,
         [⟨tsOfNanos 1000000000, "9.9.9.9", some 37, some (-122), some 68, some 32,
           some (3/2)⟩], 0) ∧
    (0 = countSupported
        [⟨some "location", some 1000000000,
          some ⟨none, none, none, some 37, some (-122), some 68, some 32, some (3/2)⟩⟩] ∧
      (upload_sensor_data emptyDb "9.9.9.9"
          [⟨some "location", some 1000000000,
            some ⟨none, none, none, some 37, some (-122), some 68, some 32,
              some (3/2)⟩⟩]).2 = UploadResponse.success 0) :=
  ⟨rfl,
    C9_theorem emptyDb "9.9.9.9"
      [⟨some "location", some 1000000000,
        some ⟨none, none, none, some 37, some (-122), some 68, some 32, some (3/2)⟩⟩]
      emptyBatches
      [⟨tsOfNanos 1000000000, "9.9.9.9", some 37, some (-122), some 68, some 32,
        some (3/2)⟩] 0 rfl⟩

/-- Counterexample to claim C9 as stated: the claim demands that a decoded
and routed location record be counted; the code stores the location row in
`location_data` yet answers `processed_count = 0`, not 1. -/
theorem C9_counterexample :
    upload_sensor_data emptyDb "9.9.9.9"
        [⟨some "location", some 1000000000,
          some ⟨none, none, none, some 37, some (-122), some 68, some 32, some (3/2)⟩⟩] =
      (⟨[], [], [], [], [],
        [⟨tsOfNanos 1000000000, "9.9.9.9", some 37, some (-122), some 68, some 32,
          some (3/2)⟩]⟩,
       UploadResponse.success 0) := by
  rfl

/-- Claim C10 (confirmed): the PostgreSQL gateway decodes the whole payload
before any store call, so a request whose decoding raises returns the error
response and leaves the durable state untouched. -/
theorem C10_theorem (db : DbState) (cip : String) (payload : List RawRecord) (e : String)
    (h : processPayload cip payload = Except.error e) :
    upload_sensor_data db cip payload = (db, UploadResponse.error e) := by
  unfold upload_sensor_data
  rw [h]

/-- Witness for `C10_theorem`: a single accelerometer record missing `time`
makes decoding raise; the database is returned unchanged. -/
theorem C10_witness :
    processPayload "1.2.3.4" [⟨some "accelerometer", none, some (motionValues 1 2 3)⟩] =
      Except.error "KeyError time" ∧
    upload_sensor_data emptyDb "1.2.3.4"
        [⟨some "accelerometer", none, some (motionValues 1 2 3)⟩] =
      (emptyDb, UploadResponse.error "KeyError time") :=
  ⟨rfl,
    C10_theorem emptyDb "1.2.3.4"
      [⟨some "accelerometer", none, some (motionValues 1 2 3)⟩] "KeyError time" rfl⟩

/-! ## Retention sweeper: failure isolation within one run -/

/-- The tables swept in one run are the longest error-free prefix. -/
theorem run_deletes_takeWhile (deleteOld : String → Except String Unit) (ts : List String) :
    (run_deletes deleteOld ts).1 = ts.takeWhile (fun t => exceptOk (deleteOld t)) := by
  induction ts with
  | nil => rfl
  | cons t rest ih =>
    unfold run_deletes
    cases h : deleteOld t with
    | error e => simp [List.takeWhile_cons, h, exceptOk]
    | ok u => simp [List.takeWhile_cons, h, exceptOk, ih]

/-- The periodic loop performs one run per period. -/
theorem cleanup_periods_length (pf : Nat → String → Except String Unit) (n : Nat) :
    (cleanup_periods pf n).length = n := by
  induction n with
  | zero => rfl
  | succ m ih => simp [cleanup_periods, ih]

/-- Each period executes its own full run, whatever earlier periods did. -/
theorem cleanup_periods_getD (pf : Nat → String → Except String Unit) (n p : Nat)
    (hp : p < n) :
    (cleanup_periods pf n).getD p ([], none) = cleanup_run (pf p) := by
  induction n with
  | zero => omega
  | succ m ih =>
    unfold cleanup_periods
    rcases Nat.lt_succ_iff_lt_or_eq.mp hp with h | h
    · rw [List.getD_append _ _ _ _ (by rw [cleanup_periods_length]; exact h)]
      exact ih h
    · subst h
      rw [List.getD_append_right _ _ _ _ (by rw [cleanup_periods_length])]
      simp [cleanup_periods_length]

/-- Claim C8 (corrected by `C8_counterexample`): within one sweep run the
whole per-table loop sits in a single `try`, so the tables actually swept are
exactly the longest prefix of the table list whose deletes succeed — a
failure aborts the remaining tables of that run; the loop nevertheless runs
again on every later period, re-attempting the full sweep. -/
theorem C8_theorem (deleteOld : String → Except String Unit)
    (pf : Nat → String → Except String Unit) (n p : Nat) (hp : p < n) :
    (cleanup_run deleteOld).1 =
      cleanup_tables.takeWhile (fun t => exceptOk (deleteOld t)) ∧
    (cleanup_periods pf n).getD p ([], none) = cleanup_run (pf p) :=
  ⟨run_deletes_takeWhile deleteOld cleanup_tables, cleanup_periods_getD pf n p hp⟩

/-- Witness for `C8_theorem`: a delete that fails only on
`accelerometer_data`, two periods, first period inspected. -/
theorem C8_witness :
    (0 : Nat) < 2 ∧
    ((cleanup_run (fun t =>
        if t = "accelerometer_data" then Except.error "connection lost"
        else Except.ok ())).1 =
      cleanup_tables.takeWhile (fun t => exceptOk
        ((fun t =>
          if t = "accelerometer_data" then Except.error "connection lost"
          else Except.ok ()) t)) ∧
    (cleanup_periods (fun _ t =>
        if t = "accelerometer_data" then Except.error "connection lost"
        else Except.ok ()) 2).getD 0 ([], none) =
      cleanup_run ((fun _ t =>
        if t = "accelerometer_data" then Except.error "connection lost"
        else Except.ok ()) 0)) :=
  ⟨by decide,
    C8_theorem
      (fun t => if t = "accelerometer_data" then Except.error "connection lost"
        else Except.ok ())
      (fun _ t => if t = "accelerometer_data" then Except.error "connection lost"
        else Except.ok ()) 2 0 (by decide)⟩

/-- Counterexample to claim C8 as stated: the claim demands that a failure in
one table's sweep not abort the remaining tables of that run; with a delete
that fails exactly on `accelerometer_data` (and would succeed on every other
table), the run sweeps only `gravity_data` — `accelerometeruncalibrated_data`,
`gyroscope_data`, `totalacceleration_data` and `location_data` are skipped. -/
theorem C8_counterexample :
    cleanup_run (fun t =>
        if t = "accelerometer_data" then Except.error "connection lost"
        else Except.ok ()) =
      (["gravity_data"], some "connection lost") := by
  rfl

/-! ## Live ring buffer: ordering invariant and capacity -/

/-- A bounded deque append keeps a strictly increasing queue strictly
increasing when the new element beats the last one. -/
theorem chain_dequeAppend (cap : Nat) (q : List ℚ) (a : ℚ)
    (hchain : List.Chain' (· < ·) q) (hlast : ∀ t ∈ q.getLast?, t < a) :
    List.Chain' (· < ·) (dequeAppend cap q a) := by
  unfold dequeAppend
  split
  · rw [List.chain'_append]
    refine ⟨hchain, List.chain'_singleton a, ?_⟩
    intro x hx y hy
    simp only [List.head?_cons, Option.mem_some_iff] at hy
    subst hy
    exact hlast x hx
  · rw [List.chain'_append]
    refine ⟨hchain.drop 1, List.chain'_singleton a, ?_⟩
    intro x hx y hy
    simp only [List.head?_cons, Option.mem_some_iff] at hy
    subst hy
    rw [List.getLast?_drop] at hx
    by_cases hq : q.length ≤ 1
    · rw [if_pos hq] at hx
      cases hx
    · rw [if_neg hq] at hx
      exact hlast x hx

/-- When the sample beats the buffered last timestamp (or the buffer is
empty), admission appends to the time queue. -/
theorem admit_sample_appends (ds : DataStore) (s : Sample)
    (h : ∀ t ∈ ds.time_queue.getLast?, t < s.ts) :
    (admit_sample ds s).time_queue =
      dequeAppend total_data_points ds.time_queue s.ts := by
  unfold admit_sample
  split
  · rfl
  · rename_i t hl
    rw [if_pos (h t (by rw [Option.mem_def, hl]))]

/-- A sample that does not beat the last buffered timestamp is dropped. -/
theorem admit_sample_drops (ds : DataStore) (s : Sample) (t : ℚ)
    (hl : ds.time_queue.getLast? = some t) (h : s.ts ≤ t) :
    admit_sample ds s = ds := by
  unfold admit_sample
  split
  · rename_i hl2
    rw [hl] at hl2
    cases hl2
  · rename_i t2 hl2
    rw [hl] at hl2
    cases hl2
    rw [if_neg (not_lt.mpr h)]

/-- Bounded deque append, written as a window: the last `cap` elements of the
extended queue, for a queue already within capacity. -/
theorem dequeAppend_eq_lastN {α : Type} (cap : Nat) (q : List α) (a : α)
    (hcap : 1 ≤ cap) (hlen : q.length ≤ cap) :
    dequeAppend cap q a = lastN cap (q ++ [a]) := by
  unfold dequeAppend lastN
  by_cases h : q.length < cap
  · rw [if_pos h]
    have hz : (q ++ [a]).length - cap = 0 := by
      simp only [List.length_append, List.length_singleton]
      omega
    rw [hz, List.drop_zero]
  · rw [if_neg h]
    have h1 : (q ++ [a]).length - cap = 1 := by
      simp only [List.length_append, List.length_singleton]
      omega
    rw [h1, List.drop_append_of_le_length (by omega)]

/-- Taking the last `cap` elements, appending, and taking the last `cap`
again is the same as taking the last `cap` of the full concatenation. -/
theorem lastN_lastN_append {α : Type} (cap : Nat) (l1 l2 : List α) :
    lastN cap (lastN cap l1 ++ l2) = lastN cap (l1 ++ l2) := by
  unfold lastN
  rw [← List.drop_append_of_le_length (Nat.sub_le l1.length cap), List.drop_drop]
  have hidx : l1.length - cap + (((l1 ++ l2).drop (l1.length - cap)).length - cap) =
      (l1 ++ l2).length - cap := by
    simp only [List.length_drop, List.length_append]
    omega
  rw [hidx]

/-- Admitting a batch whose timestamps extend the buffered queue strictly
increasingly retains exactly the last `total_data_points` timestamps of the
concatenated stream. -/
theorem admit_all_time_queue (ss : List Sample) :
    ∀ ds : DataStore,
      List.Chain' (· < ·) (ds.time_queue ++ ss.map Sample.ts) →
      ds.time_queue.length ≤ total_data_points →
      (admit_all ds ss).time_queue =
        lastN total_data_points (ds.time_queue ++ ss.map Sample.ts) := by
  induction ss with
  | nil =>
    intro ds hchain hlen
    show ds.time_queue = lastN total_data_points (ds.time_queue ++ [])
    rw [List.append_nil]
    unfold lastN
    rw [Nat.sub_eq_zero_of_le hlen, List.drop_zero]
  | cons s rest ih =>
    intro ds hchain hlen
    have hwhole : ds.time_queue ++ (s :: rest).map Sample.ts =
        (ds.time_queue ++ [s.ts]) ++ rest.map Sample.ts := by
      simp
    have hjunc : ∀ t ∈ ds.time_queue.getLast?, t < s.ts := by
      intro t ht
      have h3 := (List.chain'_append.mp hchain).2.2
      exact h3 t ht s.ts (by simp)
    have hadm := admit_sample_appends ds s hjunc
    have hq2 : (admit_sample ds s).time_queue =
        lastN total_data_points (ds.time_queue ++ [s.ts]) := by
      rw [hadm]
      exact dequeAppend_eq_lastN total_data_points ds.time_queue s.ts (by decide) hlen
    have hchain2 : List.Chain' (· < ·)
        ((admit_sample ds s).time_queue ++ rest.map Sample.ts) := by
      rw [hq2]
      unfold lastN
      rw [← List.drop_append_of_le_length
        (Nat.sub_le (ds.time_queue ++ [s.ts]).length total_data_points)]
      have hc : List.Chain' (· < ·)
          ((ds.time_queue ++ [s.ts]) ++ List.map Sample.ts rest) := by
        rw [← hwhole]
        exact hchain
      exact hc.drop _
    have hlen2 : (admit_sample ds s).time_queue.length ≤ total_data_points := by
      rw [hq2]
      unfold lastN
      rw [List.length_drop]
      omega
    have hfinal := ih (admit_sample ds s) hchain2 hlen2
    show (admit_all (admit_sample ds s) rest).time_queue = _
    rw [hfinal, hq2, lastN_lastN_append, ← hwhole]

/-- Claim C6 (confirmed): admission preserves the strictly increasing
timestamp invariant of the live buffer, and the concrete ordering scenario
holds — after `t1 < t2` a third sample with timestamp at most `t2` is
dropped, leaving exactly `[t1, t2]` in order. -/
theorem C6_theorem (ds : DataStore) (s : Sample)
    (hchain : List.Chain' (· < ·) ds.time_queue) :
    List.Chain' (· < ·) (admit_sample ds s).time_queue ∧
    ∀ t1 t2 t3 x1 y1 z1 x2 y2 z2 x3 y3 z3 : ℚ, t1 < t2 → t3 ≤ t2 →
      (admit_all emptyStore
          [⟨t1, x1, y1, z1⟩, ⟨t2, x2, y2, z2⟩, ⟨t3, x3, y3, z3⟩]).time_queue =
        [t1, t2] := by
  constructor
  · unfold admit_sample
    split
    · rename_i hl
      have hq : ds.time_queue = [] := List.getLast?_eq_none_iff.mp hl
      show List.Chain' (· < ·) (dequeAppend total_data_points ds.time_queue s.ts)
      rw [hq]
      exact chain_dequeAppend _ [] s.ts List.chain'_nil (by simp)
    · rename_i t hl
      by_cases ht : t < s.ts
      · rw [if_pos ht]
        show List.Chain' (· < ·) (dequeAppend total_data_points ds.time_queue s.ts)
        refine chain_dequeAppend _ _ s.ts hchain ?_
        intro u hu
        rw [Option.mem_def, hl] at hu
        cases hu
        exact ht
      · rw [if_neg ht]
        exact hchain
  · intro t1 t2 t3 x1 y1 z1 x2 y2 z2 x3 y3 z3 h12 h32
    have s1 : admit_sample emptyStore ⟨t1, x1, y1, z1⟩ =
        ⟨[t1], [x1], [y1], [z1]⟩ := by
      rfl
    have s2 : admit_sample (⟨[t1], [x1], [y1], [z1]⟩ : DataStore) ⟨t2, x2, y2, z2⟩ =
        ⟨[t1, t2], [x1, x2], [y1, y2], [z1, z2]⟩ := by
      unfold admit_sample
      split
      · rename_i hl
        simp at hl
      · rename_i t hl
        have ht : t = t1 := by
          simp only [List.getLast?_singleton, Option.some_inj] at hl
          exact hl.symm
        subst ht
        rw [if_pos h12]
        rfl
    have s3 : admit_sample (⟨[t1, t2], [x1, x2], [y1, y2], [z1, z2]⟩ : DataStore)
        ⟨t3, x3, y3, z3⟩ = ⟨[t1, t2], [x1, x2], [y1, y2], [z1, z2]⟩ :=
      admit_sample_drops _ _ t2 rfl h32
    show (admit_sample (admit_sample (admit_sample emptyStore ⟨t1, x1, y1, z1⟩)
        ⟨t2, x2, y2, z2⟩) ⟨t3, x3, y3, z3⟩).time_queue = [t1, t2]
    rw [s1, s2, s3]

/-- Witness for `C6_theorem`: the empty buffer and the timestamps 1, 2, 2. -/
theorem C6_witness :
    List.Chain' (· < ·) (admit_sample emptyStore ⟨1, 0, 0, 0⟩).time_queue ∧
    (admit_all emptyStore [⟨1, 0, 0, 0⟩, ⟨2, 0, 0, 0⟩, ⟨2, 0, 0, 0⟩]).time_queue =
      [1, 2] :=
  ⟨(C6_theorem emptyStore ⟨1, 0, 0, 0⟩ List.chain'_nil).1,
    (C6_theorem emptyStore ⟨1, 0, 0, 0⟩ List.chain'_nil).2
      1 2 2 0 0 0 0 0 0 0 0 0 (by norm_num) (by norm_num)⟩

/-- Claim C7 (confirmed): the buffer capacity is
`data_length_to_display * sampling_rate = 60 * 50 = 3000`, and admitting
`capacity + k` strictly increasing samples into the empty buffer leaves
exactly the last `capacity` timestamps — the `k` oldest are evicted. -/
theorem C7_theorem (ss : List Sample) (k : Nat)
    (hchain : List.Chain' (· < ·) (ss.map Sample.ts))
    (hlen : ss.length = total_data_points + k) :
    (admit_all emptyStore ss).time_queue = (ss.map Sample.ts).drop k ∧
    (admit_all emptyStore ss).time_queue.length = total_data_points ∧
    total_data_points = data_length_to_display * sampling_rate ∧
    total_data_points = 3000 := by
  have hmain := admit_all_time_queue ss emptyStore (by simpa [emptyStore] using hchain)
    (by simp [emptyStore])
  have hq : (admit_all emptyStore ss).time_queue = (ss.map Sample.ts).drop k := by
    rw [hmain]
    show lastN total_data_points ([] ++ ss.map Sample.ts) = _
    rw [List.nil_append]
    unfold lastN
    have hidx : (ss.map Sample.ts).length - total_data_points = k := by
      rw [List.length_map, hlen]
      omega
    rw [hidx]
  refine ⟨hq, ?_, rfl, by decide⟩
  rw [hq, List.length_drop, List.length_map, hlen]
  omega

/-- Witness for `C7_theorem`: the 3000 strictly increasing integer-timestamped
samples `0, 1, ..., 2999` (`k = 0`) fill the buffer exactly. -/
theorem C7_witness :
    (admit_all emptyStore
        ((List.range 3000).map (fun (n : Nat) => (⟨(n : ℚ), 0, 0, 0⟩ : Sample)))).time_queue =
      (((List.range 3000).map (fun (n : Nat) => (⟨(n : ℚ), 0, 0, 0⟩ : Sample))).map
        Sample.ts).drop 0 ∧
    (admit_all emptyStore
        ((List.range 3000).map
          (fun (n : Nat) => (⟨(n : ℚ), 0, 0, 0⟩ : Sample)))).time_queue.length =
      total_data_points ∧
    total_data_points = data_length_to_display * sampling_rate ∧
    total_data_points = 3000 := by
  refine C7_theorem
    ((List.range 3000).map (fun (n : Nat) => (⟨(n : ℚ), 0, 0, 0⟩ : Sample))) 0 ?_ ?_
  · rw [List.map_map]
    have hp := List.pairwise_lt_range 3000
    generalize List.range 3000 = l at hp ⊢
    refine List.chain'_map_of_chain' _ ?_ hp.chain'
    intro a b hab
    show (a : ℚ) < (b : ℚ)
    exact_mod_cast hab
  · rw [List.length_map, List.length_range]
    decide

/-! ## Spectral analysis: dominant frequency and the H/V ratio -/

/-- The first-maximum accumulator is `none` exactly on the empty list. -/
theorem argmaxAux_eq_none_iff {α : Type} [LinearOrder α] (l : List α) :
    argmaxAux l = none ↔ l = [] := by
  cases l with
  | nil => simp [argmaxAux]
  | cons a rest =>
    simp only [argmaxAux]
    constructor
    · intro h
      split at h
      · cases h
      · split at h <;> cases h
    · intro h
      cases h

/-- The first-maximum accumulator returns an in-range index of a maximal
element, resolving ties to the front. -/
theorem argmaxAux_spec {α : Type} [LinearOrder α] :
    ∀ (l : List α) (j : Nat) (m : α), argmaxAux l = some (j, m) →
      j < l.length ∧ m ∈ l ∧ (∀ d : α, l.getD j d = m) ∧ ∀ x ∈ l, x ≤ m := by
  intro l
  induction l with
  | nil =>
    intro j m h
    cases h
  | cons a rest ih =>
    intro j m h
    unfold argmaxAux at h
    split at h
    · rename_i harg
      cases h
      have hrest : rest = [] := (argmaxAux_eq_none_iff rest).mp harg
      subst hrest
      refine ⟨by simp, by simp, fun d => rfl, ?_⟩
      intro x hx
      simp at hx
      simp [hx]
    · rename_i j0 m0 harg
      have hrest := ih j0 m0 harg
      split at h
      · rename_i hcmp
        cases h
        refine ⟨by simpa using Nat.succ_lt_succ hrest.1,
          List.mem_cons_of_mem a hrest.2.1, ?_, ?_⟩
        · intro d
          rw [List.getD_cons_succ]
          exact hrest.2.2.1 d
        · intro x hx
          rcases List.mem_cons.mp hx with rfl | hx2
          · exact le_of_lt hcmp
          · exact hrest.2.2.2 x hx2
      · rename_i hcmp
        cases h
        refine ⟨by simp, by simp, fun d => rfl, ?_⟩
        intro x hx
        rcases List.mem_cons.mp hx with rfl | hx2
        · exact le_refl x
        · exact le_trans (hrest.2.2.2 x hx2) (not_lt.mp hcmp)

/-- Mapping a list through an order-reflecting function commutes with the
first-maximum accumulator. -/
theorem argmaxAux_map {α β : Type} [LinearOrder α] [LinearOrder β] (g : α → β) :
    ∀ l : List α, (∀ x ∈ l, ∀ y ∈ l, (x < y ↔ g x < g y)) →
      argmaxAux (l.map g) = Option.map (fun p => (p.1, g p.2)) (argmaxAux l) := by
  intro l
  induction l with
  | nil =>
    intro hg
    rfl
  | cons a rest ih =>
    intro hg
    have hg2 : ∀ x ∈ rest, ∀ y ∈ rest, (x < y ↔ g x < g y) := fun x hx y hy =>
      hg x (List.mem_cons_of_mem a hx) y (List.mem_cons_of_mem a hy)
    rw [List.map_cons]
    show (match argmaxAux (rest.map g) with
      | none => some (0, g a)
      | some (j, m) => if g a < m then some (j + 1, m) else some (0, g a)) =
      Option.map (fun p => (p.1, g p.2)) (match argmaxAux rest with
      | none => some (0, a)
      | some (j, m) => if a < m then some (j + 1, m) else some (0, a))
    rw [ih hg2]
    cases harg : argmaxAux rest with
    | none => rfl
    | some q =>
      obtain ⟨j0, m0⟩ := q
      have hm0 : m0 ∈ rest := (argmaxAux_spec rest j0 m0 harg).2.1
      have hiff : a < m0 ↔ g a < g m0 :=
        hg a (List.mem_cons_self a rest) m0 (List.mem_cons_of_mem a hm0)
      show (if g a < g m0 then some (j0 + 1, g m0) else some (0, g a)) =
        Option.map (fun p => (p.1, g p.2))
          (if a < m0 then some (j0 + 1, m0) else some (0, a))
      by_cases hcmp : a < m0
      · rw [if_pos hcmp, if_pos (hiff.mp hcmp)]
        rfl
      · rw [if_neg hcmp, if_neg (fun hc => hcmp (hiff.mpr hc))]
        rfl

/-- `np.argmax` is invariant under an order-reflecting transformation. -/
theorem argmaxIdx_map {α β : Type} [LinearOrder α] [LinearOrder β] (g : α → β)
    (l : List α) (hg : ∀ x ∈ l, ∀ y ∈ l, (x < y ↔ g x < g y)) :
    argmaxIdx (l.map g) = argmaxIdx l := by
  unfold argmaxIdx
  rw [argmaxAux_map g l hg]
  cases argmaxAux l with
  | none => rfl
  | some p => rfl

/-- The decibel conversion reflects the order of positive powers: `log10` is
strictly monotone on positives and the factor 10 is positive. -/
theorem toDb_lt_iff (x y : ℝ) (hx : 0 < x) (hy : 0 < y) :
    x < y ↔ toDb x < toDb y := by
  unfold toDb
  rw [mul_lt_mul_left (by norm_num : (0:ℝ) < 10)]
  exact (Real.logb_lt_logb_iff (by norm_num : (1:ℝ) < 10) hx hy).symm

/-- Claim C4 (confirmed): for a nonempty spectrogram with positive per-bin
total powers and a matching frequency vector, the single-axis extraction
returns `f[i]` for an index `i` maximizing the total power summed across time
segments (equivalently, its decibel value — the conversion is order
preserving) whenever that maximum in dB strictly exceeds the threshold, and
the sentinel `0.0` otherwise. -/
theorem C4_theorem (Sxx : List (List ℝ)) (f : List ℝ) (θ : ℝ)
    (hne : Sxx ≠ []) (hlen : f.length = Sxx.length)
    (hpos : ∀ p ∈ totalPower Sxx, 0 < p) :
    ∃ i : Nat, i < (totalPower Sxx).length ∧ i < f.length ∧
      (∀ p ∈ totalPower Sxx, p ≤ (totalPower Sxx).getD i 0) ∧
      extract_dominant_frequency Sxx f θ =
        (if θ < toDb ((totalPower Sxx).getD i 0) then f.getD i 0 else 0) := by
  have htp : totalPower Sxx ≠ [] := by
    unfold totalPower
    simpa using hne
  have htplen : (totalPower Sxx).length = Sxx.length := by
    simp [totalPower]
  obtain ⟨q, hq⟩ : ∃ q, argmaxAux (totalPower Sxx) = some q := by
    cases harg : argmaxAux (totalPower Sxx) with
    | none => exact absurd ((argmaxAux_eq_none_iff _).mp harg) htp
    | some q => exact ⟨q, rfl⟩
  obtain ⟨j, m⟩ := q
  have hspec := argmaxAux_spec (totalPower Sxx) j m hq
  refine ⟨j, hspec.1, by rw [hlen, ← htplen]; exact hspec.1, ?_, ?_⟩
  · intro p hp
    rw [hspec.2.2.1 0]
    exact hspec.2.2.2 p hp
  · simp only [extract_dominant_frequency]
    have hmap : argmaxIdx ((totalPower Sxx).map toDb) = argmaxIdx (totalPower Sxx) :=
      argmaxIdx_map toDb (totalPower Sxx)
        (fun x hx y hy => toDb_lt_iff x y (hpos x hx) (hpos y hy))
    have hidx : argmaxIdx (totalPower Sxx) = j := by
      unfold argmaxIdx
      rw [hq]
    rw [hmap, hidx]
    have hjlen : j < ((totalPower Sxx).map toDb).length := by
      rw [List.length_map]
      exact hspec.1
    rw [List.getD_eq_getElem _ _ hjlen, List.getD_eq_getElem _ _ hspec.1,
      List.getElem_map]

/-- Witness for `C4_theorem`: the two-bin spectrogram `[[1], [100]]` with
frequencies `[2, 3]` at the default −30 dB threshold. -/
theorem C4_witness :
    ([[(1:ℝ)], [100]] ≠ ([] : List (List ℝ))) ∧
    (([2, 3] : List ℝ).length = ([[(1:ℝ)], [100]] : List (List ℝ)).length) ∧
    (∀ p ∈ totalPower [[(1:ℝ)], [100]], 0 < p) ∧
    (∃ i : Nat, i < (totalPower [[(1:ℝ)], [100]]).length ∧
      i < ([2, 3] : List ℝ).length ∧
      (∀ p ∈ totalPower [[(1:ℝ)], [100]],
        p ≤ (totalPower [[(1:ℝ)], [100]]).getD i 0) ∧
      extract_dominant_frequency [[(1:ℝ)], [100]] [2, 3] default_power_threshold =
        (if default_power_threshold < toDb ((totalPower [[(1:ℝ)], [100]]).getD i 0)
         then ([2, 3] : List ℝ).getD i 0 else 0)) :=
  ⟨by simp, rfl,
    by
      intro p hp
      simp [totalPower] at hp
      rcases hp with h | h <;> rw [h] <;> norm_num,
    C4_theorem [[(1:ℝ)], [100]] [2, 3] default_power_threshold (by simp) rfl
      (by
        intro p hp
        simp [totalPower] at hp
        rcases hp with h | h <;> rw [h] <;> norm_num)⟩

/-- Claim C5 (corrected by `C5_counterexample`): whenever the three frequency
grids are not identical, the H/V computation hands the caller the numeric
sentinel `0.0` — every internal outcome under a mismatch is either an early
sentinel return or a raised exception, and the blanket `except` of
`extract_h_over_v_dominant_frequency` converts the latter to `0.0` instead of
surfacing it. -/
theorem C5_theorem (SxxX SxxY SxxZ : List (List ℝ)) (fX fY fZ : List ℝ) (θ : ℝ)
    (h : fX ≠ fY ∨ fX ≠ fZ) :
    extract_h_over_v_dominant_frequency SxxX SxxY SxxZ fX fY fZ θ = 0 := by
  have hcore : hOverVCore SxxX SxxY SxxZ fX fY fZ θ = Except.ok 0 ∨
      ∃ e, hOverVCore SxxX SxxY SxxZ fX fY fZ θ = Except.error e := by
    simp only [hOverVCore]
    repeat' split
    all_goals
      first
        | (left; rfl)
        | (right; exact ⟨_, rfl⟩)
  unfold extract_h_over_v_dominant_frequency
  rcases hcore with hc | ⟨e, hc⟩ <;> rw [hc]

/-- Witness for `C5_theorem`: mismatched grids `[1]` versus `[2]`. -/
theorem C5_witness :
    (([1] : List ℝ) ≠ [2] ∨ ([1] : List ℝ) ≠ [1]) ∧
    extract_h_over_v_dominant_frequency [[(1:ℝ)]] [[1]] [[1]] [1] [2] [1]
      default_power_threshold = 0 :=
  ⟨Or.inl (by simp), C5_theorem [[(1:ℝ)]] [[1]] [[1]] [1] [2] [1]
    default_power_threshold (Or.inl (by simp))⟩

/-- Counterexample to claim C5 as stated: with unit power on every axis (all
three dB maxima are 0 dB, clearing the −30 dB threshold) and the mismatched
grids `[1]`, `[2]`, `[1]`, the body raises the grid-mismatch `ValueError`
internally, but the caller receives the numeric sentinel `0.0` — the error is
never surfaced. -/
theorem C5_counterexample :
    hOverVCore [[(1:ℝ)]] [[1]] [[1]] [1] [2] [1] default_power_threshold =
      Except.error "Frequency arrays for X, Y, and Z components must match." ∧
    extract_h_over_v_dominant_frequency [[(1:ℝ)]] [[1]] [[1]] [1] [2] [1]
      default_power_threshold = 0 := by
  have hclamp : clampEps [[(1:ℝ)]] = [[1]] := by
    simp only [clampEps, List.map_cons, List.map_nil]
    rw [max_eq_left (by norm_num : (1:ℝ) / 10000000000 ≤ 1)]
  have hdb : (totalPower [[(1:ℝ)]]).map toDb = [0] := by
    simp [totalPower, toDb, Real.logb_one]
  have hcore : hOverVCore [[(1:ℝ)]] [[1]] [[1]] [1] [2] [1] default_power_threshold =
      Except.error "Frequency arrays for X, Y, and Z components must match." := by
    simp only [hOverVCore]
    rw [hclamp, hdb]
    norm_num [npMax, npZip, default_power_threshold]
  refine ⟨hcore, ?_⟩
  unfold extract_h_over_v_dominant_frequency
  rw [hcore]

end SensorServer
